import Mathlib

/-!
Shallow embedding of the mc-server-util client (src/index.js) and proofs about
its VarInt codec, RCON packet codec, status-response parser, and the two
per-connection session state machines (status query and RCON command).

Buffers are modelled as `List Nat` of byte values; strings that the JS code
only ever treats through their UTF-8 bytes (RCON payloads, passwords,
commands) are modelled as their byte lists.  JS numbers flowing through
bitwise operators are modelled with explicit ToUint32/ToInt32 conversions
(JS bitwise operators truncate to 32 bits; `x >>> n` yields an unsigned
32-bit result, all other bitwise operators yield signed 32-bit results, and
shift counts are taken modulo 32).
-/

/-- JS ToUint32: the value modulo 2^32, as a natural number.
`Int.emod` is nonnegative for a positive modulus, matching JS. -/
def toUint32 (x : Int) : Nat := (x % 4294967296).toNat

/-- Reinterpret the low 32 bits of a natural number as a signed 32-bit
integer; this is the value JS bitwise operators (other than `>>>`) return. -/
def uintToInt32 (u : Nat) : Int :=
  if u % 4294967296 < 2147483648 then ((u % 4294967296 : Nat) : Int)
  else ((u % 4294967296 : Nat) : Int) - 4294967296

/-- JS bitwise or (`a | b`) on numbers. -/
def jsOr32 (a b : Int) : Int := uintToInt32 (toUint32 a ||| toUint32 b)

/-- JS left shift (`a << n`): the shift count is taken modulo 32 and the
result is truncated to a signed 32-bit value. -/
def jsShl32 (a : Int) (n : Nat) : Int := uintToInt32 (toUint32 a * 2 ^ (n % 32))

/-- One iteration per 7-bit group of the do/while loop of `varintEncode`
(src/index.js lines 429-436):
`temp = value & 0x7F; value >>>= 7; if (value !== 0) temp |= 0x80; push temp`.
For a value already reduced below 2^32 (which `>>>` guarantees after the
first iteration, and `toUint32` captures for the first), `value & 0x7F` is
`v % 128` and `value >>> 7` is `v / 128`; `temp |= 0x80` is `temp + 128`
since `temp < 128`.  The loop runs at most 5 times on a value below 2^32
(128^5 = 2^35), so the fuel of 6 is never exhausted; the fuel-0 branch is
dead code. -/
def varintEncodeAux : Nat → Nat → List Nat
  | 0, _ => []
  | fuel + 1, v =>
    let temp := v % 128
    let v2 := v / 128
    if v2 = 0 then [temp] else (temp + 128) :: varintEncodeAux fuel v2

/-- `varintEncode` (src/index.js lines 419-439).  The negative remap in the
source is `value = (1 << 32) + value`; in JS the shift count of `<<` is
taken modulo 32, so `1 << 32` evaluates to `1` (not 2^32) - this is kept
verbatim via `jsShl32 1 32`.  The loop body operates through ToInt32/ToUint32
conversions, which collapse to running the plain base-128 loop on
`toUint32` of the (possibly still negative) remapped value. -/
def varintEncode (value : Int) : List Nat :=
  let value2 := if value < 0 then jsShl32 1 32 + value else value
  varintEncodeAux 6 (toUint32 value2)

/-- Error taxonomy of the status-query path, one constructor per distinct
`Error` thrown or passed to `reject` in src/index.js.  The status data
handler distinguishes errors by exact message, which the constructors
mirror. -/
inductive StatusError where
  /-- message `Incomplete data` (readVarInt and parseStatusResponse) -/
  | incompleteData
  /-- message `VarInt too big` (readVarInt) -/
  | varIntTooBig
  /-- message `Unexpected packet ID: ...` (parseStatusResponse) -/
  | unexpectedPacketId (pid : Int)
  /-- message `Failed to parse server response: ...` (parseStatusResponse) -/
  | jsonParseError (msg : String)
  /-- TypeError thrown by `result.players.sample.map` when `sample` is undefined -/
  | typeErrorReadingMap
  /-- message `Connection timeout` (timeout handler) -/
  | connectionTimeout
  /-- transport error forwarded by the error handler -/
  | socketError (msg : String)
  /-- message `Connection closed without valid response` (end/close handlers) -/
  | closedWithoutResponse
  deriving DecidableEq

/-- The do/while loop of `readVarInt` (src/index.js lines 452-465).
Each iteration: bounds-check (`Incomplete data` if past the end), read the
byte, `value |= (byte & 0x7F) << (position * 7)` with JS signed-32-bit
semantics, increment `position`, throw `VarInt too big` once `position`
exceeds 5, and continue while the continuation bit (`byte & 0x80`) is set.
`byte & 0x7F` is `byte % 128` and the continuation test is
`byte / 128 % 2 = 1` (bit 7), exact for every natural number.  The
position guard fires during the sixth iteration at the latest, so the fuel
of 6 is never exhausted; the fuel-0 branch is dead code. -/
def readVarIntAux (buffer : List Nat) (offset : Nat) :
    Nat → Nat → Int → Except StatusError (Int × Nat)
  | 0, _, _ => .error .varIntTooBig
  | fuel + 1, position, value =>
    match buffer[offset + position]? with
    | none => .error .incompleteData
    | some currentByte =>
      let value2 := jsOr32 value (jsShl32 ((currentByte % 128 : Nat) : Int) (position * 7))
      let position2 := position + 1
      if position2 > 5 then .error .varIntTooBig
      else if currentByte / 128 % 2 = 1 then readVarIntAux buffer offset fuel position2 value2
      else .ok (value2, position2)

/-- `readVarInt` (src/index.js lines 447-468): returns the decoded value and
the number of bytes consumed. -/
def readVarInt (buffer : List Nat) (offset : Nat) : Except StatusError (Int × Nat) :=
  readVarIntAux buffer offset 6 0 0

/-- C3: the claim states that `varintEncode` remaps a negative input to
`2^32 + value` and that `encode(-1)` equals the 5-byte encoding of
`0xFFFFFFFF`.  In JS the remap `(1 << 32) + value` actually evaluates to
`1 + value` because the shift count of `<<` is reduced modulo 32, so `-1`
is remapped to `0` and encodes as the single byte `0x00`, while the 5-byte
encoding of `0xFFFFFFFF` is `[0xFF, 0xFF, 0xFF, 0xFF, 0x0F]`.  The code's
own comment ("-1 is represented as 0xFFFFFFFF") documents the claimed
behaviour, so this is a bug in the code. -/
theorem varintEncode_neg_one_misses_wraparound :
    varintEncode (-1) = [0] ∧
    varintEncode 4294967295 = [255, 255, 255, 255, 15] ∧
    varintEncode (-1) ≠ varintEncode 4294967295 := by
  refine ⟨by decide, by decide, by decide⟩

/-- Error taxonomy of the RCON path, one constructor per distinct `Error`
created in `sendRconCommand`/`parseRconPacket` in src/index.js. -/
inductive RconError where
  /-- message `Invalid RCON packet (too short)` -/
  | tooShort
  /-- message `Incomplete RCON packet` -/
  | incompletePacket
  /-- message `RCON authentication failed - incorrect password` -/
  | authenticationFailed
  /-- message `RCON connection timeout` -/
  | connectionTimeout
  /-- transport error forwarded by the error handler -/
  | socketError (msg : String)
  /-- message `RCON connection closed before authentication` -/
  | closedBeforeAuth
  /-- message `RCON connection closed before receiving response` -/
  | closedBeforeResponse
  deriving DecidableEq

/-- Decoded RCON packet, the record returned by `parseRconPacket`
(src/index.js lines 346-351).  The payload string is modelled as its
UTF-8 byte list. -/
structure RconPacket where
  length : Int
  id : Int
  type : Int
  payload : List Nat
  deriving DecidableEq

/-- Node `buf.readInt32LE(off)`: little-endian recombination of four bytes,
reinterpreted as a signed 32-bit integer.  Buffer cells are bytes, which the
`% 256` normalisation enforces for arbitrary `List Nat` inputs. -/
def readInt32LE (data : List Nat) (off : Nat) : Int :=
  uintToInt32 (data.getD off 0 % 256 + data.getD (off + 1) 0 % 256 * 256 +
    data.getD (off + 2) 0 % 256 * 65536 + data.getD (off + 3) 0 % 256 * 16777216)

/-- Node `buf.writeInt32LE(v, off)` serialises the two's-complement
representation of `v` in little-endian order (Node raises a RangeError for
values outside the signed 32-bit range; every use in the source and every
theorem below stays inside that range, where this byte list is exactly what
Node writes). -/
def writeInt32LE (v : Int) : List Nat :=
  [toUint32 v % 256, toUint32 v / 256 % 256, toUint32 v / 65536 % 256,
   toUint32 v / 16777216 % 256]

/-- Node `buf.toString(utf8, start, stop)` byte region, as used by
`parseRconPacket`: clamped to the buffer, empty when `stop ≤ start`
(the stop position may be a signed expression). -/
def bufSlice (data : List Nat) (start : Nat) (stop : Int) : List Nat :=
  (data.take stop.toNat).drop start

/-- `createRconPacket` (src/index.js lines 281-316): payload UTF-8 bytes plus
one NUL terminator; `length = 4 + 4 + payloadBuffer.length`; the buffer is
`Buffer.alloc(4 + length)` with the three header fields written little-endian
at offsets 0, 4, 8 and the payload copied at offset 12 - since
`12 + payloadBuffer.length = 4 + length`, the zero-filled allocation is
covered completely and the packet is the concatenation below. -/
def createRconPacket (type id : Int) (payload : List Nat) : List Nat :=
  let payloadBuffer := payload ++ [0]
  let length : Nat := 4 + 4 + payloadBuffer.length
  writeInt32LE (length : Int) ++ writeInt32LE id ++ writeInt32LE type ++ payloadBuffer

/-- `parseRconPacket` (src/index.js lines 324-352): fails on fewer than 12
bytes, reads the three little-endian header fields, fails if the buffer is
shorter than `4 + length`, and slices the payload from byte 12 to
`4 + length - 2` (dropping the last two bytes of the declared length). -/
def parseRconPacket (data : List Nat) : Except RconError RconPacket :=
  if data.length < 12 then .error .tooShort
  else
    let length := readInt32LE data 0
    let id := readInt32LE data 4
    let type := readInt32LE data 8
    if (data.length : Int) < 4 + length then .error .incompletePacket
    else
      .ok { length := length, id := id, type := type,
            payload := bufSlice data 12 (4 + length - 2) }

lemma toUint32_lt (x : Int) : toUint32 x < 4294967296 := by
  unfold toUint32; omega

lemma uintToInt32_toUint32 (v : Int) (h1 : -2147483648 ≤ v) (h2 : v < 2147483648) :
    uintToInt32 (toUint32 v) = v := by
  unfold uintToInt32 toUint32
  split <;> omega

lemma toUint32_ofNat (u : Nat) (h : u < 4294967296) : toUint32 (u : Int) = u := by
  unfold toUint32; omega

lemma uintToInt32_of_lt (u : Nat) (h : u < 2147483648) : uintToInt32 u = (u : Int) := by
  unfold uintToInt32
  split <;> omega

lemma readInt32LE_write_head (v : Int) (rest : List Nat) :
    readInt32LE (writeInt32LE v ++ rest) 0 = uintToInt32 (toUint32 v) := by
  have h := toUint32_lt v
  simp only [readInt32LE, writeInt32LE, List.cons_append, List.nil_append,
    List.getD_cons_zero, List.getD_cons_succ]
  congr 1
  omega

lemma readInt32LE_shift4 (a0 a1 a2 a3 : Nat) (rest : List Nat) (off : Nat) :
    readInt32LE (a0 :: a1 :: a2 :: a3 :: rest) (off + 4) = readInt32LE rest off := by
  have e : ∀ k : Nat, off + 4 + k = (off + k) + 4 := by omega
  simp only [readInt32LE]
  rw [show off + 4 = (off + 0) + 4 by omega]
  simp only [e]
  norm_num [List.getD_cons_succ]

lemma writeInt32LE_cons (v : Int) : ∃ a0 a1 a2 a3 : Nat,
    writeInt32LE v = [a0, a1, a2, a3] := ⟨_, _, _, _, rfl⟩

lemma createRconPacket_eq (type id : Int) (payload : List Nat) :
    createRconPacket type id payload =
      writeInt32LE ((4 + 4 + (payload.length + 1) : Nat) : Int) ++
        (writeInt32LE id ++ (writeInt32LE type ++ (payload ++ [0]))) := by
  simp [createRconPacket, List.append_assoc]

/-- C8: for every type, request id and payload (with the header fields inside
the signed 32-bit range Node's `writeInt32LE` accepts), the encoded packet's
length field holds `4 + 4 + len(payload ++ NUL)`, the total buffer size is
exactly `4 + length`, the three header fields read back little-endian from
offsets 0, 4, 8, and the payload bytes (with their NUL terminator) follow at
offset 12. -/
theorem createRconPacket_header_spec (type id : Int) (payload : List Nat)
    (ht1 : -2147483648 ≤ type) (ht2 : type < 2147483648)
    (hi1 : -2147483648 ≤ id) (hi2 : id < 2147483648)
    (hp : payload.length + 9 ≤ 2147483647) :
    (createRconPacket type id payload).length = 4 + (4 + 4 + (payload.length + 1)) ∧
    readInt32LE (createRconPacket type id payload) 0 =
      ((4 + 4 + (payload.length + 1) : Nat) : Int) ∧
    readInt32LE (createRconPacket type id payload) 4 = id ∧
    readInt32LE (createRconPacket type id payload) 8 = type ∧
    (createRconPacket type id payload).drop 12 = payload ++ [0] := by
  rw [createRconPacket_eq]
  refine ⟨?_, ?_, ?_, ?_, ?_⟩
  · simp [writeInt32LE]
    omega
  · rw [readInt32LE_write_head, uintToInt32_toUint32] <;> omega
  · obtain ⟨a0, a1, a2, a3, hw⟩ := writeInt32LE_cons ((4 + 4 + (payload.length + 1) : Nat) : Int)
    rw [hw]
    simp only [List.cons_append, List.nil_append]
    rw [show (4 : Nat) = 0 + 4 by rfl, readInt32LE_shift4]
    rw [readInt32LE_write_head, uintToInt32_toUint32 id hi1 hi2]
  · obtain ⟨a0, a1, a2, a3, hw⟩ := writeInt32LE_cons ((4 + 4 + (payload.length + 1) : Nat) : Int)
    rw [hw]
    obtain ⟨b0, b1, b2, b3, hw2⟩ := writeInt32LE_cons id
    rw [hw2]
    simp only [List.cons_append, List.nil_append]
    rw [show (8 : Nat) = (0 + 4) + 4 by rfl, readInt32LE_shift4, readInt32LE_shift4]
    rw [readInt32LE_write_head, uintToInt32_toUint32 type ht1 ht2]
  · rw [← List.append_assoc, ← List.append_assoc]
    rw [List.drop_left'
      (show (writeInt32LE ((4 + 4 + (payload.length + 1) : Nat) : Int) ++
        writeInt32LE id ++ writeInt32LE type).length = 12 by simp [writeInt32LE])]

/-- Witness for C8 at type 2, request id 0x456, payload "ab" ([97, 98]). -/
theorem createRconPacket_header_spec_witness :
    (createRconPacket 2 1110 [97, 98]).length = 4 + (4 + 4 + (2 + 1)) ∧
    readInt32LE (createRconPacket 2 1110 [97, 98]) 4 = 1110 ∧
    (createRconPacket 2 1110 [97, 98]).drop 12 = [97, 98, 0] := by
  obtain ⟨h1, h2, h3, h4, h5⟩ := createRconPacket_header_spec 2 1110 [97, 98]
    (by decide) (by decide) (by decide) (by decide) (by decide)
  exact ⟨h1, h3, h5⟩

/-- C9: decoding an encoded RCON packet with a non-empty payload returns the
payload with its final byte removed: the encoder appends exactly one NUL
terminator while the decoder strips the last two bytes of the declared
length, so one payload byte is lost. -/
theorem parseRconPacket_createRconPacket (type id : Int) (p : List Nat)
    (hne : p ≠ [])
    (ht1 : -2147483648 ≤ type) (ht2 : type < 2147483648)
    (hi1 : -2147483648 ≤ id) (hi2 : id < 2147483648)
    (hp : p.length + 9 ≤ 2147483647) :
    parseRconPacket (createRconPacket type id p) =
      .ok { length := ((4 + 4 + (p.length + 1) : Nat) : Int), id := id, type := type,
            payload := p.dropLast } := by
  obtain ⟨hlen, hread0, hread4, hread8, hdrop⟩ :=
    createRconPacket_header_spec type id p ht1 ht2 hi1 hi2 hp
  have hplen : 0 < p.length := by
    cases p with
    | nil => exact absurd rfl hne
    | cons a l => simp
  have hpl : bufSlice (createRconPacket type id p)
      12 (4 + ((4 + 4 + (p.length + 1) : Nat) : Int) - 2) = p.dropLast := by
    have hstop : ((4 : Int) + ((4 + 4 + (p.length + 1) : Nat) : Int) - 2).toNat
        = 12 + (p.length - 1) := by
      push_cast
      omega
    rw [bufSlice, hstop]
    have h12 : (12 : Nat) = (writeInt32LE ((4 + 4 + (p.length + 1) : Nat) : Int) ++
        writeInt32LE id ++ writeInt32LE type).length := by simp [writeInt32LE]
    rw [createRconPacket_eq, ← List.append_assoc, ← List.append_assoc]
    rw [h12, List.take_append, List.drop_left]
    rw [List.take_append_of_le_length (by simp), List.dropLast_eq_take]
  simp only [parseRconPacket]
  rw [if_neg (by omega)]
  rw [hread0, hread4, hread8, hpl]
  rw [if_neg (by push_cast [hlen]; omega)]

/-- Witness for C9 at type 2, request id 0x456, payload "ab" ([97, 98]):
the decoded payload is [97], i.e. "a" - the final payload byte is gone. -/
theorem parseRconPacket_createRconPacket_witness :
    parseRconPacket (createRconPacket 2 1110 [97, 98]) =
      .ok { length := 11, id := 1110, type := 2, payload := [97] } := by
  simpa using parseRconPacket_createRconPacket 2 1110 [97, 98] (by decide) (by decide)
    (by decide) (by decide) (by decide) (by decide)

lemma toUint32_uintToInt32 (u : Nat) : toUint32 (uintToInt32 u) = u % 4294967296 := by
  unfold toUint32 uintToInt32
  split <;> omega

lemma lor_mul_pow (a c k : Nat) (h : a < 2 ^ k) : a ||| c * 2 ^ k = a + c * 2 ^ k := by
  rw [Nat.or_comm, Nat.mul_comm c]
  rw [← Nat.mul_add_lt_is_or h c]
  omega

lemma jsOr_shl_step (acc d p : Nat) (hd : d < 128) (hacc : acc < 2 ^ (p * 7)) (hp : p ≤ 4)
    (hbound : d * 2 ^ (p * 7) < 4294967296) :
    jsOr32 (uintToInt32 acc) (jsShl32 ((d : Nat) : Int) (p * 7)) =
      uintToInt32 (acc + d * 2 ^ (p * 7)) := by
  have hacc32 : acc < 4294967296 := by
    have h28 : (2 : Nat) ^ (p * 7) ≤ 2 ^ 28 := Nat.pow_le_pow_right (by norm_num) (by omega)
    have : (2 : Nat) ^ 28 = 268435456 := by norm_num
    omega
  have hsh : (p * 7) % 32 = p * 7 := Nat.mod_eq_of_lt (by omega)
  unfold jsOr32 jsShl32
  rw [toUint32_ofNat d (by omega), hsh, toUint32_uintToInt32, toUint32_uintToInt32]
  rw [Nat.mod_eq_of_lt hacc32, Nat.mod_eq_of_lt hbound]
  rw [lor_mul_pow acc d (p * 7) hacc]

lemma readVarIntAux_varintEncodeAux :
    ∀ (f v p acc : Nat) (buffer rest : List Nat) (offset : Nat),
    buffer.drop (offset + p) = varintEncodeAux f v ++ rest →
    v < 128 ^ f →
    0 < f →
    p ≤ 4 →
    acc < 2 ^ (p * 7) →
    acc + v * 2 ^ (p * 7) < 4294967296 →
    readVarIntAux buffer offset (6 - p) p (uintToInt32 acc) =
      .ok (uintToInt32 (acc + v * 2 ^ (p * 7)), p + (varintEncodeAux f v).length) := by
  intro f
  induction f with
  | zero => intro v p acc buffer rest offset _ _ hf; omega
  | succ g ih =>
    intro v p acc buffer rest offset hdrop hv hf hp hacc hsum
    obtain ⟨k, hk⟩ : ∃ k, 6 - p = k + 1 := ⟨5 - p, by omega⟩
    rw [hk]
    by_cases hz : v / 128 = 0
    · -- last byte: the encoder emits [v % 128] with v < 128
      have hvlt : v < 128 := by omega
      have henc : varintEncodeAux (g + 1) v = [v % 128] := by
        simp [varintEncodeAux, hz]
      rw [henc] at hdrop ⊢
      have hb : buffer[offset + p]? = some (v % 128) := by
        have h0 : (buffer.drop (offset + p))[0]? = some (v % 128) := by
          rw [hdrop]; simp
        rwa [List.getElem?_drop, Nat.add_zero] at h0
      simp only [readVarIntAux, hb]
      rw [if_neg (by omega)]
      rw [if_neg (by omega)]
      have hstep := jsOr_shl_step acc (v % 128) p (by omega) hacc hp
        (by
          have : (v % 128) * 2 ^ (p * 7) ≤ v * 2 ^ (p * 7) :=
            Nat.mul_le_mul_right _ (Nat.mod_le v 128)
          omega)
      rw [show v % 128 % 128 = v % 128 by omega, hstep, Nat.mod_eq_of_lt hvlt]
      simp
    · -- continuation byte: the encoder emits (v % 128 + 128) :: encode (v / 128)
      have henc : varintEncodeAux (g + 1) v =
          (v % 128 + 128) :: varintEncodeAux g (v / 128) := by
        simp [varintEncodeAux, hz]
      rw [henc] at hdrop ⊢
      have hb : buffer[offset + p]? = some (v % 128 + 128) := by
        have h0 : (buffer.drop (offset + p))[0]? = some (v % 128 + 128) := by
          rw [hdrop]; simp
        rwa [List.getElem?_drop, Nat.add_zero] at h0
      -- p = 4 would force v < 16, contradicting v / 128 ≠ 0
      have hp3 : p ≤ 3 := by
        by_contra hgt
        have hp4 : p = 4 := by omega
        subst hp4
        have h28 : (2 : Nat) ^ (4 * 7) = 268435456 := by norm_num
        have hv16 : v < 16 := by nlinarith
        omega
      have h2 : (2 : Nat) ^ ((p + 1) * 7) = 2 ^ (p * 7) * 128 := by
        rw [show (p + 1) * 7 = p * 7 + 7 by ring, pow_add]
        norm_num
      simp only [readVarIntAux, hb]
      rw [if_neg (by omega)]
      rw [if_pos (by omega)]
      have hstep := jsOr_shl_step acc (v % 128) p (by omega) hacc hp
        (by
          have : (v % 128) * 2 ^ (p * 7) ≤ v * 2 ^ (p * 7) :=
            Nat.mul_le_mul_right _ (Nat.mod_le v 128)
          omega)
      rw [show (v % 128 + 128) % 128 = v % 128 by omega, hstep]
      have hk2 : k = 6 - (p + 1) := by omega
      have hdrop2 : buffer.drop (offset + (p + 1)) = varintEncodeAux g (v / 128) ++ rest := by
        have ht : (buffer.drop (offset + p)).tail = buffer.drop (offset + p + 1) :=
          List.tail_drop buffer (offset + p)
        rw [hdrop] at ht
        rw [show offset + (p + 1) = offset + p + 1 by ring, ← ht]
        simp
      have hv2 : v / 128 < 128 ^ g := by
        rw [Nat.div_lt_iff_lt_mul (by norm_num)]
        calc v < 128 ^ (g + 1) := hv
          _ = 128 ^ g * 128 := by rw [pow_succ]
      have hg : 0 < g := by
        rcases Nat.eq_zero_or_pos g with h0 | h0
        · subst h0; simp at hv2; omega
        · exact h0
      have hacc2 : acc + (v % 128) * 2 ^ (p * 7) < 2 ^ ((p + 1) * 7) := by
        rw [h2]
        have hle : v % 128 ≤ 127 := by omega
        have hmul : (v % 128) * 2 ^ (p * 7) ≤ 127 * 2 ^ (p * 7) :=
          Nat.mul_le_mul_right _ hle
        nlinarith [Nat.pos_pow_of_pos (p * 7) (show 0 < 2 by norm_num)]
      have hkey : acc + (v % 128) * 2 ^ (p * 7) + (v / 128) * 2 ^ ((p + 1) * 7) =
          acc + v * 2 ^ (p * 7) := by
        rw [h2]
        have hvm : v % 128 + v / 128 * 128 = v := by omega
        calc acc + (v % 128) * 2 ^ (p * 7) + (v / 128) * (2 ^ (p * 7) * 128)
            = acc + (v % 128 + v / 128 * 128) * 2 ^ (p * 7) := by ring
          _ = acc + v * 2 ^ (p * 7) := by rw [hvm]
      have hsum2 : acc + (v % 128) * 2 ^ (p * 7) + (v / 128) * 2 ^ ((p + 1) * 7) <
          4294967296 := by rw [hkey]; exact hsum
      have hrec := ih (v / 128) (p + 1) (acc + (v % 128) * 2 ^ (p * 7)) buffer rest offset
        hdrop2 hv2 hg (by omega) hacc2 hsum2
      rw [hk2, hrec, hkey]
      have hlen2 : p + 1 + (varintEncodeAux g (v / 128)).length =
          p + ((varintEncodeAux g (v / 128)).length + 1) := by omega
      rw [List.length_cons, hlen2]

/-- C4 (amended): for every unsigned 32-bit integer v, decoding the bytes
produced by encode(v) at offset 0 consumes exactly the bytes encode produced
and yields v reinterpreted as a signed 32-bit integer - equal to v when
v < 2^31 and to v - 2^32 otherwise, because the decoder accumulates with the
JS signed-32-bit `|=` operator. -/
theorem readVarInt_varintEncode (v : Nat) (hv : v < 4294967296) :
    readVarInt (varintEncode (v : Int)) 0 =
      .ok (uintToInt32 v, (varintEncode (v : Int)).length) ∧
    (v < 2147483648 → uintToInt32 v = (v : Int)) := by
  have henc : varintEncode (v : Int) = varintEncodeAux 6 v := by
    simp only [varintEncode]
    rw [if_neg (by omega), toUint32_ofNat v hv]
  constructor
  · rw [henc]
    unfold readVarInt
    have h128 : (128 : Nat) ^ 6 = 4398046511104 := by norm_num
    have key := readVarIntAux_varintEncodeAux 6 v 0 0 (varintEncodeAux 6 v) [] 0
      (by simp) (by omega) (by norm_num) (by norm_num) (by norm_num)
      (by norm_num; omega)
    simpa [uintToInt32_of_lt 0 (by norm_num)] using key
  · intro h
    exact uintToInt32_of_lt v h

/-- Counterexample to C4 as stated: at v = 2^31 the round trip returns the
value -2^31, not v. -/
theorem readVarInt_varintEncode_cex :
    readVarInt (varintEncode 2147483648) 0 = .ok (-2147483648, 5) ∧
    readVarInt (varintEncode 2147483648) 0 ≠ .ok (2147483648, 5) := by
  have h : readVarInt (varintEncode 2147483648) 0 = .ok (-2147483648, 5) := rfl
  refine ⟨h, ?_⟩
  rw [h]
  intro hEq
  have h2 := Except.ok.inj hEq
  simp at h2

/-- Witness for C4 (amended) at v = 300 (a two-byte VarInt). -/
theorem readVarInt_varintEncode_wit :
    (300 : Nat) < 4294967296 ∧
    readVarInt (varintEncode ((300 : Nat) : Int)) 0 =
      .ok (uintToInt32 300, (varintEncode ((300 : Nat) : Int)).length) :=
  ⟨by decide, (readVarInt_varintEncode 300 (by decide)).1⟩

/-- Entry of the players.sample array in the decoded status JSON; the code
only ever reads the `name` field (the wire `id` field is unused). -/
structure Player where
  name : String
  deriving DecidableEq

/-- The players object of the decoded status JSON plus the derived
`nicknames` field the session may add.  `sample` is optional on the wire;
`nicknames` is never wire data. -/
structure Players where
  max : Int
  online : Int
  sample : Option (List Player) := none
  nicknames : Option String := none
  deriving DecidableEq

/-- Decoded status object, restricted to the fields the source code touches
(`online` is set by the session; `players` drives the augmentation). -/
structure ServerStatus where
  online : Bool := false
  players : Option Players := none
  deriving DecidableEq

/-- `parseStatusResponse` (src/index.js lines 360-412): read the outer
length VarInt, check the buffer holds that many further bytes, read and
check the packet id, read the JSON length VarInt, check the bytes are
present, slice the JSON region and hand it to the JSON parser.  The JSON
text parser is an external collaborator, passed as `jp`; its failure is
wrapped as `Failed to parse server response` (`jsonParseError`). -/
def parseStatusResponse (jp : List Nat → Except String ServerStatus) (data : List Nat) :
    Except StatusError ServerStatus :=
  match readVarInt data 0 with
  | .error e => .error e
  | .ok (packetLength, s1) =>
    if (data.length : Int) < (s1 : Int) + packetLength then .error .incompleteData
    else
      match readVarInt data s1 with
      | .error e => .error e
      | .ok (packetId, s2) =>
        if packetId ≠ 0 then .error (.unexpectedPacketId packetId)
        else
          match readVarInt data (s1 + s2) with
          | .error e => .error e
          | .ok (jsonLength, s3) =>
            if (data.length : Int) < ((s1 + s2 + s3 : Nat) : Int) + jsonLength then
              .error .incompleteData
            else
              match jp (bufSlice data (s1 + s2 + s3)
                  (((s1 + s2 + s3 : Nat) : Int) + jsonLength)) with
              | .ok response => .ok response
              | .error m => .error (.jsonParseError m)

/-- A JSON parser stand-in that always fails; used by closed statements
whose control path never reaches JSON parsing. -/
def trivialJsonParse : List Nat → Except String ServerStatus := fun _ => .error ""

/-- C7: for every buffer whose outer length VarInt decodes and which holds
the declared number of bytes, if the packet-id VarInt decodes to a value
other than 0 then `parseStatusResponse` fails with the unexpected-packet-id
protocol error (for every JSON parser, since JSON is never reached), never
returning a status result. -/
theorem parseStatusResponse_bad_packet_id
    (jp : List Nat → Except String ServerStatus) (data : List Nat)
    (plen : Int) (s1 : Nat) (pid : Int) (s2 : Nat)
    (h1 : readVarInt data 0 = .ok (plen, s1))
    (h2 : ¬ ((data.length : Int) < (s1 : Int) + plen))
    (h3 : readVarInt data s1 = .ok (pid, s2))
    (h4 : pid ≠ 0) :
    parseStatusResponse jp data = .error (.unexpectedPacketId pid) := by
  simp only [parseStatusResponse, h1, h3]
  rw [if_neg h2, if_pos h4]

/-- Witness for C7: the two-byte buffer [1, 1] is a complete outer packet
with packet id 1. -/
theorem parseStatusResponse_bad_packet_id_wit :
    readVarInt [1, 1] 0 = .ok (1, 1) ∧
    parseStatusResponse trivialJsonParse [1, 1] = .error (.unexpectedPacketId 1) :=
  ⟨rfl, parseStatusResponse_bad_packet_id trivialJsonParse [1, 1] 1 1 1 1 rfl
    (by norm_num) rfl (by norm_num)⟩

/-- Decidable equality for Except, needed so concrete session states can be
compared by evaluation. -/
instance exceptDecEq {e a : Type} [DecidableEq e] [DecidableEq a] :
    DecidableEq (Except e a) := fun x y =>
  match x, y with
  | .ok u, .ok v => decidable_of_iff (u = v) (by simp)
  | .ok _, .error _ => .isFalse (by simp)
  | .error _, .ok _ => .isFalse (by simp)
  | .error u, .error v => decidable_of_iff (u = v) (by simp)

/-- The augmentation step of the status data handler (src/index.js lines
60-63): set `online := true`; if `result?.players?.online` is truthy and
`> 0`, set `players.nicknames` to the comma-joined sample names.  When
`players.sample` is absent, `result.players.sample.map` throws a TypeError
(`typeErrorReadingMap`), which the surrounding try/catch turns into a
rejection. -/
def augmentStatus (result : ServerStatus) : Except StatusError ServerStatus :=
  let result2 := { result with online := true }
  match result2.players with
  | none => .ok result2
  | some p =>
    if p.online ≠ 0 ∧ 0 < p.online then
      match p.sample with
      | none => .error .typeErrorReadingMap
      | some sample =>
        let nn := String.intercalate ", " (sample.map Player.name)
        .ok { result2 with players := some { p with nicknames := some nn } }
    else .ok result2

/-- Socket events delivered to a status session: data chunks, end, close,
timeout and transport errors. -/
inductive StatusEvent where
  | data (chunk : List Nat)
  | ended
  | closed
  | timeout
  | error (msg : String)

/-- Closure state of one `getMinecraftServerStatus` invocation
(src/index.js lines 10-95): the accumulation buffer `data`, the
`hasReceivedResponse` flag, and the promise.  `settled` models the
promise's one-shot outcome (later resolve/reject calls cannot change it);
`resolveCalls`/`rejectCalls` count how often the executor invoked
resolve/reject; `ended`/`destroyed` record socket shutdown calls. -/
structure StatusSession where
  data : List Nat := []
  hasReceivedResponse : Bool := false
  settled : Option (Except StatusError ServerStatus) := none
  resolveCalls : Nat := 0
  rejectCalls : Nat := 0
  ended : Bool := false
  destroyed : Bool := false
  deriving DecidableEq

/-- Promise `resolve` for a status session: counts the call and records the
outcome only if the promise is still pending. -/
def statusResolve (s : StatusSession) (v : ServerStatus) : StatusSession :=
  { s with resolveCalls := s.resolveCalls + 1,
           settled := match s.settled with | none => some (.ok v) | some o => some o }

/-- Promise `reject` for a status session: counts the call and records the
outcome only if the promise is still pending. -/
def statusReject (s : StatusSession) (e : StatusError) : StatusSession :=
  { s with rejectCalls := s.rejectCalls + 1,
           settled := match s.settled with | none => some (.error e) | some o => some o }

/-- One socket event handled by the status session (src/index.js lines
50-94).  Data: append the chunk, try `parseStatusResponse`; on success set
`hasReceivedResponse`, end the socket, augment (which may throw on a
missing sample) and resolve or reject; on `Incomplete data` keep waiting;
on any other failure end the socket and reject.  End/close: reject with
`Connection closed without valid response` unless a response was received.
Timeout: destroy and reject.  Error: reject with the transport error. -/
def statusStep (jp : List Nat → Except String ServerStatus) (s : StatusSession) :
    StatusEvent → StatusSession
  | .data chunk =>
    let s2 := { s with data := s.data ++ chunk }
    match parseStatusResponse jp s2.data with
    | .ok result =>
      let s3 := { s2 with hasReceivedResponse := true, ended := true }
      match augmentStatus result with
      | .ok r => statusResolve s3 r
      | .error e => statusReject { s3 with ended := true } e
    | .error e =>
      if e = .incompleteData then s2
      else statusReject { s2 with ended := true } e
  | .ended => if s.hasReceivedResponse then s else statusReject s .closedWithoutResponse
  | .closed => if s.hasReceivedResponse then s else statusReject s .closedWithoutResponse
  | .timeout => statusReject { s with destroyed := true } .connectionTimeout
  | .error m => statusReject s (.socketError m)

/-- Process a sequence of socket events, in order, starting from `s`. -/
def statusRun (jp : List Nat → Except String ServerStatus) (s : StatusSession)
    (events : List StatusEvent) : StatusSession :=
  events.foldl (statusStep jp) s

/-- Socket events delivered to an RCON session; `connect` is the connect
callback that sends the auth packet. -/
inductive RconEvent where
  | connect
  | data (chunk : List Nat)
  | ended
  | closed
  | timeout
  | error (msg : String)

/-- Closure state of one `sendRconCommand` invocation (src/index.js lines
107-187): `authenticated`, the accumulated `responseData`, and the promise
(modelled as in `StatusSession`).  `writes` records every packet written to
the socket. -/
structure RconSession where
  authenticated : Bool := false
  responseData : List Nat := []
  settled : Option (Except RconError (List Nat)) := none
  writes : List (List Nat) := []
  resolveCalls : Nat := 0
  rejectCalls : Nat := 0
  ended : Bool := false
  destroyed : Bool := false
  deriving DecidableEq

/-- Promise `resolve` for an RCON session. -/
def rconResolve (s : RconSession) (v : List Nat) : RconSession :=
  { s with resolveCalls := s.resolveCalls + 1,
           settled := match s.settled with | none => some (.ok v) | some o => some o }

/-- Promise `reject` for an RCON session. -/
def rconReject (s : RconSession) (e : RconError) : RconSession :=
  { s with rejectCalls := s.rejectCalls + 1,
           settled := match s.settled with | none => some (.error e) | some o => some o }

/-- One socket event handled by the RCON session (src/index.js lines
127-186).  Connect: write the auth packet (type 3, id 0x123 = 291).  Data:
parse the chunk alone (no accumulation); on parse failure destroy and
reject; while unauthenticated, id 0x123 means auth success (mark
authenticated, write the command packet, type 2, id 0x456 = 1110) - the
nested `id !== -1` / reject-AuthenticationFailed branch of the source is
kept verbatim and is dead code because it sits under `id === 0x123`; any
other id is ignored.  Once authenticated, id 0x456 appends the payload,
ends the socket and resolves; other ids are ignored.  End: reject with
closed-before-auth or closed-before-response (never after a response).
Close: log only.  Timeout: destroy and reject.  Error: reject. -/
def rconStep (password command : List Nat) (s : RconSession) : RconEvent → RconSession
  | .connect => { s with writes := s.writes ++ [createRconPacket 3 291 password] }
  | .data chunk =>
    match parseRconPacket chunk with
    | .error e => rconReject { s with destroyed := true } e
    | .ok packetInfo =>
      if s.authenticated = false then
        if packetInfo.id = 291 then
          if packetInfo.id ≠ -1 then
            { s with authenticated := true,
                     writes := s.writes ++ [createRconPacket 2 1110 command] }
          else rconReject { s with destroyed := true } .authenticationFailed
        else s
      else
        if packetInfo.id = 1110 then
          let s2 := { s with responseData := s.responseData ++ packetInfo.payload }
          rconResolve { s2 with ended := true } s2.responseData
        else s
  | .ended =>
    if s.authenticated = false then rconReject s .closedBeforeAuth
    else if s.responseData = [] then rconReject s .closedBeforeResponse
    else s
  | .closed => s
  | .timeout => rconReject { s with destroyed := true } .connectionTimeout
  | .error m => rconReject s (.socketError m)

/-- Process a sequence of socket events, in order, starting from `s`. -/
def rconRun (password command : List Nat) (s : RconSession) (events : List RconEvent) :
    RconSession :=
  events.foldl (rconStep password command) s

/-- C1: the claim states that a decoded auth-response packet with id == -1
makes the session fail terminally with AuthenticationFailed.  In the code
the reject branch is dead (nested under `packetInfo.id === 0x123`), so a
packet with id -1 received while awaiting authentication leaves the session
state completely unchanged: no AuthenticationFailed rejection ever happens,
the session keeps waiting (until timeout or close produces a different
error).  The half of the claim that holds is that the socket is never used
to send a command packet (the write list is unchanged).  Because the source
contains the unreachable `reject(... authentication failed ...)` branch,
the intent is clear and this is a bug in the code. -/
theorem rconStep_auth_fail_sentinel_ignored (password command : List Nat)
    (s : RconSession) (chunk : List Nat) (pkt : RconPacket)
    (hauth : s.authenticated = false)
    (hparse : parseRconPacket chunk = .ok pkt)
    (hid : pkt.id = -1) :
    rconStep password command s (.data chunk) = s := by
  simp [rconStep, hparse, hauth, hid]

/-- Witness for C1: a concrete auth-failure response (type 2, id -1) leaves
the fresh session untouched. -/
theorem rconStep_auth_fail_sentinel_ignored_wit :
    parseRconPacket (createRconPacket 2 (-1) []) =
      .ok { length := 9, id := -1, type := 2, payload := [] } ∧
    ({} : RconSession).authenticated = false ∧
    rconStep [] [] {} (.data (createRconPacket 2 (-1) [])) = ({} : RconSession) :=
  ⟨rfl, rfl, rconStep_auth_fail_sentinel_ignored [] [] {} (createRconPacket 2 (-1) [])
    { length := 9, id := -1, type := 2, payload := [] } rfl rfl rfl⟩

/-- C2 (amended): an inbound chunk that does not form a complete RCON
packet does NOT leave the session waiting - the RCON data handler parses
each chunk in isolation and its catch block destroys the socket and rejects
with the decode error (`Invalid RCON packet (too short)` or `Incomplete
RCON packet`), so the incomplete-data condition is surfaced to the caller
of sendConsoleCommand as a failure. -/
theorem rconStep_incomplete_rejects (password command : List Nat)
    (s : RconSession) (chunk : List Nat) (e : RconError)
    (hset : s.settled = none)
    (hparse : parseRconPacket chunk = .error e) :
    (rconStep password command s (.data chunk)).settled = some (.error e) ∧
    (rconStep password command s (.data chunk)).destroyed = true := by
  simp [rconStep, hparse, rconReject, hset]

/-- Witness for C2 (amended): a 1-byte chunk rejects with the too-short
error. -/
theorem rconStep_incomplete_rejects_wit :
    ({} : RconSession).settled = none ∧
    parseRconPacket [0] = .error RconError.tooShort ∧
    (rconStep [] [] {} (.data [0])).settled = some (.error RconError.tooShort) :=
  ⟨rfl, rfl, (rconStep_incomplete_rejects [] [] {} [0] RconError.tooShort rfl rfl).1⟩

/-- Counterexample to C2 as stated: a 12-byte chunk declaring length 100
(id 0x123, type 2) is incomplete, yet the session does not keep waiting -
it terminates, settled with the incomplete-packet error. -/
theorem rconStep_incomplete_rejects_cex :
    (rconStep [] [] {} (.data [100, 0, 0, 0, 35, 1, 0, 0, 2, 0, 0, 0])).settled =
      some (.error RconError.incompletePacket) ∧
    ({} : RconSession).settled = none := ⟨rfl, rfl⟩

/-- Any single event preserves an already-settled status promise. -/
lemma statusStep_preserves_settled (jp : List Nat → Except String ServerStatus)
    (s : StatusSession) (e : StatusEvent) (o : Except StatusError ServerStatus)
    (h : s.settled = some o) : (statusStep jp s e).settled = some o := by
  cases e with
  | data chunk =>
    simp only [statusStep]
    cases parseStatusResponse jp (s.data ++ chunk) with
    | ok result =>
      cases haug : augmentStatus result <;> simp [haug, statusResolve, statusReject, h]
    | error e2 =>
      by_cases he : e2 = .incompleteData <;> simp [he, statusReject, h]
  | ended => by_cases hr : s.hasReceivedResponse <;> simp [statusStep, hr, statusReject, h]
  | closed => by_cases hr : s.hasReceivedResponse <;> simp [statusStep, hr, statusReject, h]
  | timeout => simp [statusStep, statusReject, h]
  | error m => simp [statusStep, statusReject, h]

/-- Any single event preserves an already-settled RCON promise. -/
lemma rconStep_preserves_settled (password command : List Nat)
    (s : RconSession) (e : RconEvent) (o : Except RconError (List Nat))
    (h : s.settled = some o) : (rconStep password command s e).settled = some o := by
  cases e with
  | connect => simp [rconStep, h]
  | data chunk =>
    simp only [rconStep]
    cases parseRconPacket chunk with
    | ok pkt =>
      by_cases ha : s.authenticated = false <;>
        by_cases h1 : pkt.id = 291 <;> by_cases h2 : pkt.id = 1110 <;>
        simp [ha, h1, h2, rconResolve, rconReject, h]
    | error e2 => simp [rconReject, h]
  | ended =>
    by_cases ha : s.authenticated = false <;> by_cases hr : s.responseData = [] <;>
      simp [rconStep, ha, hr, rconReject, h]
  | closed => simp [rconStep, h]
  | timeout => simp [rconStep, rconReject, h]
  | error m => simp [rconStep, rconReject, h]

/-- Any event sequence preserves an already-settled status promise. -/
lemma statusRun_preserves_settled (jp : List Nat → Except String ServerStatus)
    (events : List StatusEvent) :
    ∀ (s : StatusSession) (o : Except StatusError ServerStatus), s.settled = some o →
      (statusRun jp s events).settled = some o := by
  induction events with
  | nil => intro s o h; exact h
  | cons e rest ih =>
    intro s o h
    exact ih (statusStep jp s e) o (statusStep_preserves_settled jp s e o h)

/-- Any event sequence preserves an already-settled RCON promise. -/
lemma rconRun_preserves_settled (password command : List Nat) (events : List RconEvent) :
    ∀ (s : RconSession) (o : Except RconError (List Nat)), s.settled = some o →
      (rconRun password command s events).settled = some o := by
  induction events with
  | nil => intro s o h; exact h
  | cons e rest ih =>
    intro s o h
    exact ih (rconStep password command s e) o
      (rconStep_preserves_settled password command s e o h)

/-- C5 (amended): for every sequence of socket events delivered to a status
or RCON session, the session's promise settles at most once - once settled,
no later event can change the outcome (JS promise semantics, which the
resolve/reject model captures).  The stronger claim that resolve/reject is
never invoked again after a settlement is false; see the counterexample. -/
theorem session_settles_at_most_once
    (jp : List Nat → Except String ServerStatus) (password command : List Nat)
    (sEvents : List StatusEvent) (rEvents : List RconEvent)
    (ss : StatusSession) (rs : RconSession)
    (o1 : Except StatusError ServerStatus) (o2 : Except RconError (List Nat))
    (h1 : ss.settled = some o1) (h2 : rs.settled = some o2) :
    (statusRun jp ss sEvents).settled = some o1 ∧
    (rconRun password command rs rEvents).settled = some o2 :=
  ⟨statusRun_preserves_settled jp sEvents ss o1 h1,
   rconRun_preserves_settled password command rEvents rs o2 h2⟩

/-- Witness for C5 (amended): settled sessions stay settled across further
close/end events. -/
theorem session_settles_at_most_once_wit :
    (statusRun trivialJsonParse { settled := some (.error .connectionTimeout) }
      [.closed, .ended]).settled = some (.error .connectionTimeout) ∧
    (rconRun [] [] { settled := some (.ok [97]) } [.ended, .closed]).settled =
      some (.ok [97]) :=
  session_settles_at_most_once trivialJsonParse [] [] [.closed, .ended] [.ended, .closed]
    _ _ _ _ rfl rfl

/-- Counterexample to C5 as stated: a status session that receives a
complete packet with a bad packet id rejects, but `hasReceivedResponse`
stays false, so the subsequent close event invokes reject a second time -
two reject calls for one session (the promise itself settles only once). -/
theorem statusSession_double_reject_cex :
    (statusRun trivialJsonParse {} [.data [1, 1], .closed]).rejectCalls = 2 ∧
    (statusRun trivialJsonParse {} [.data [1, 1], .closed]).settled =
      some (.error (.unexpectedPacketId 1)) := ⟨rfl, rfl⟩

/-- Players value of the C6 example: online 2, sample Alice and Bob. -/
def aliceBobPlayers : Players :=
  { max := 20, online := 2, sample := some [{ name := "Alice" }, { name := "Bob" }],
    nicknames := none }

/-- Status whose players are `aliceBobPlayers`. -/
def aliceBobStatus : ServerStatus :=
  { online := false, players := some aliceBobPlayers }

/-- JSON parser stand-in returning the Alice/Bob status. -/
def jsonParseAliceBob : List Nat → Except String ServerStatus := fun _ => .ok aliceBobStatus

/-- Players value with online 0 and no sample. -/
def zeroOnlinePlayers : Players :=
  { max := 20, online := 0, sample := none, nicknames := none }

/-- Status whose players are `zeroOnlinePlayers`. -/
def zeroOnlineStatus : ServerStatus :=
  { online := false, players := some zeroOnlinePlayers }

/-- JSON parser stand-in returning the zero-online status. -/
def jsonParseZeroOnline : List Nat → Except String ServerStatus := fun _ => .ok zeroOnlineStatus

/-- Players value with online 2 but no sample field (C10's failing shape). -/
def missingSamplePlayers : Players :=
  { max := 20, online := 2, sample := none, nicknames := none }

/-- Status whose players are `missingSamplePlayers`. -/
def missingSampleStatus : ServerStatus :=
  { online := false, players := some missingSamplePlayers }

/-- JSON parser stand-in returning the missing-sample status. -/
def jsonParseMissingSample : List Nat → Except String ServerStatus :=
  fun _ => .ok missingSampleStatus

/-- C6: when the parsed status has players.online > 0 and sample
[Alice, Bob], the session resolves with players.nicknames = "Alice, Bob";
when players.online = 0 the augmentation is skipped, the players object is
passed through unchanged, and nicknames remains absent (the parsed JSON
never carries one - nicknames is derived, not wire data). -/
theorem statusStep_augments_nicknames (jp : List Nat → Except String ServerStatus)
    (s : StatusSession) (chunk : List Nat) (st : ServerStatus) (p : Players)
    (hset : s.settled = none)
    (hparse : parseStatusResponse jp (s.data ++ chunk) = .ok st)
    (hpl : st.players = some p) :
    (p.sample = some [{ name := "Alice" }, { name := "Bob" }] → 0 < p.online →
      (statusStep jp s (.data chunk)).settled = some (.ok { st with online := true, players := some { p with nicknames := some "Alice, Bob" } })) ∧
    (p.online = 0 → p.nicknames = none →
      (statusStep jp s (.data chunk)).settled = some (.ok { st with online := true }) ∧
      ∃ q, ({ st with online := true } : ServerStatus).players = some q ∧
        q.nicknames = none) := by
  constructor
  · intro hsample honline
    have haug : augmentStatus st = .ok { st with online := true, players := some { p with nicknames := some "Alice, Bob" } } := by
      simp only [augmentStatus, hpl]
      rw [if_pos ⟨by omega, honline⟩, hsample]
      rfl
    simp [statusStep, hparse, haug, statusResolve, hset]
  · intro honline hnn
    have haug : augmentStatus st = .ok { st with online := true } := by
      simp only [augmentStatus, hpl]
      rw [if_neg (by omega)]
    refine ⟨by simp [statusStep, hparse, haug, statusResolve, hset], ⟨p, by simp [hpl], hnn⟩⟩

/-- Witness for C6 at the two example statuses. -/
theorem statusStep_augments_nicknames_wit :
    (statusStep jsonParseAliceBob {} (.data [2, 0, 0])).settled = some (.ok { online := true, players := some { aliceBobPlayers with nicknames := some "Alice, Bob" } }) ∧
    (statusStep jsonParseZeroOnline {} (.data [2, 0, 0])).settled =
      some (.ok { zeroOnlineStatus with online := true }) := by
  constructor
  · exact (statusStep_augments_nicknames jsonParseAliceBob {} [2, 0, 0] aliceBobStatus
      aliceBobPlayers rfl rfl rfl).1 rfl (by norm_num [aliceBobPlayers])
  · exact ((statusStep_augments_nicknames jsonParseZeroOnline {} [2, 0, 0] zeroOnlineStatus
      zeroOnlinePlayers rfl rfl rfl).2 rfl rfl).1

/-- C10: when the parsed status has players.online > 0 but no
players.sample, the augmentation dereferences `sample.map` on undefined,
the TypeError is caught by the data handler's catch block (its message is
not `Incomplete data`), and the session rejects instead of resolving the
otherwise-valid status. -/
theorem statusStep_missing_sample_rejects (jp : List Nat → Except String ServerStatus)
    (s : StatusSession) (chunk : List Nat) (st : ServerStatus) (p : Players)
    (hset : s.settled = none)
    (hparse : parseStatusResponse jp (s.data ++ chunk) = .ok st)
    (hpl : st.players = some p)
    (honline : 0 < p.online)
    (hsample : p.sample = none) :
    (statusStep jp s (.data chunk)).settled = some (.error .typeErrorReadingMap) ∧
    (statusStep jp s (.data chunk)).rejectCalls = s.rejectCalls + 1 ∧
    (statusStep jp s (.data chunk)).resolveCalls = s.resolveCalls := by
  have haug : augmentStatus st = .error .typeErrorReadingMap := by
    simp only [augmentStatus, hpl]
    rw [if_pos ⟨by omega, honline⟩, hsample]
  refine ⟨?_, ?_, ?_⟩ <;> simp [statusStep, hparse, haug, statusReject, hset]

/-- Witness for C10 at a concrete status with online 2 and no sample. -/
theorem statusStep_missing_sample_rejects_wit :
    missingSampleStatus.players = some missingSamplePlayers ∧
    (statusStep jsonParseMissingSample {} (.data [2, 0, 0])).settled =
      some (.error .typeErrorReadingMap) :=
  ⟨rfl, (statusStep_missing_sample_rejects jsonParseMissingSample {} [2, 0, 0]
    missingSampleStatus missingSamplePlayers rfl rfl rfl (by norm_num [missingSamplePlayers]) rfl).1⟩
